import Mathlib

/-!
Verification of the 2D interpolable look-up table (`InterpolableLUT.cpp` and the
near-duplicate `InterpolateLUT` variant).  The C++ classes store a rectangular
grid `table[y_len][x_len]` together with reference sequences `x_ref`, `y_ref`
and answer queries `find(x_input, y_input)` by two passes of linear
interpolation.  Real values are modelled by `ℚ`; the `int` lengths are modelled
by `ℕ` (the example programs only ever pass non-negative lengths).  C++ vector
indexing out of range is undefined behaviour; the model totalises it with
`List.getD _ 0`, and theorems that depend on genuine stored data carry explicit
shape hypotheses.
-/

/-- State of an `InterpolableLUT` object: the constructor arguments
`(table, x_ref, y_ref, x_len, y_len)` stored as members.  The duplicate class
`InterpolateLUT` in the second source file has exactly the same five members,
so the same record models both. -/
structure InterpolableLUT where
  table : List (List ℚ)
  x_ref : List ℚ
  y_ref : List ℚ
  x_len : ℕ
  y_len : ℕ

namespace InterpolableLUT

/-- Loop of `find_nearest_indexes`: `scanFrom list v i n` performs the remaining
`n` iterations of `for (int i = 0; i < list_len-1; i++)` starting at index `i`,
returning the pair written through `lower_result`/`upper_result` on success. -/
def scanFrom (list : List ℚ) (search_val : ℚ) : ℕ → ℕ → Option (ℕ × ℕ)
  | _, 0 => none
  | i, n + 1 =>
    if list.getD i 0 ≤ search_val ∧ search_val < list.getD (i + 1) 0 then
      some (i, i + 1)
    else scanFrom list search_val (i + 1) n

/-- Model of `InterpolableLUT::find_nearest_indexes`: scan indices
`0 .. list_len-2` for the first `i` with `list[i] <= search_val` and
`list[i+1] > search_val`; `none` models returning `false`. -/
def find_nearest_indexes (list : List ℚ) (list_len : ℕ) (search_val : ℚ) :
    Option (ℕ × ℕ) :=
  scanFrom list search_val 0 (list_len - 1)

/-- Model of `InterpolableLUT::linear_interpolate` (the `double` overload):
`y0 + (y1 - y0) * (x - x0) / (x1 - x0)`.  In `ℚ` division by zero yields `0`
where the C++ code would divide by zero. -/
def linear_interpolate (x0 y0 x1 y1 x : ℚ) : ℚ :=
  y0 + (y1 - y0) * (x - x0) / (x1 - x0)

/-- The temporary vector `interpolated_y_values_at_x` built inside `find`:
entry `i` interpolates between `table[y_lower_idx][i]` and
`table[y_upper_idx][i]` at `y_input`. -/
def syntheticRow (lut : InterpolableLUT) (y_lower_idx y_upper_idx : ℕ)
    (y_input : ℚ) : List ℚ :=
  (List.range lut.x_len).map fun i =>
    linear_interpolate (lut.y_ref.getD y_lower_idx 0)
      ((lut.table.getD y_lower_idx []).getD i 0)
      (lut.y_ref.getD y_upper_idx 0)
      ((lut.table.getD y_upper_idx []).getD i 0) y_input

/-- Model of `InterpolableLUT::find`: locate a y-bracket, build the synthetic
row, locate an x-bracket in it, and interpolate into `x_ref`; on either failed
search the initial value `result = x_input` is returned. -/
def find (lut : InterpolableLUT) (x_input y_input : ℚ) : ℚ :=
  match find_nearest_indexes lut.y_ref lut.y_len y_input with
  | some (y_lower_idx, y_upper_idx) =>
    match find_nearest_indexes (syntheticRow lut y_lower_idx y_upper_idx y_input)
        lut.x_len x_input with
    | some (x_lower_idx, x_upper_idx) =>
      linear_interpolate
        ((syntheticRow lut y_lower_idx y_upper_idx y_input).getD x_lower_idx 0)
        (lut.x_ref.getD x_lower_idx 0)
        ((syntheticRow lut y_lower_idx y_upper_idx y_input).getD x_upper_idx 0)
        (lut.x_ref.getD x_upper_idx 0)
        x_input
    | none => x_input
  | none => x_input

/-- Model of `InterpolableLUT::operator[]`: row access throws
`std::out_of_range` for `row >= y_len` and returns `table[row]` otherwise;
the throw is modelled by `Except.error`. -/
def rowAt (lut : InterpolableLUT) (row : ℕ) : Except String (List ℚ) :=
  if lut.y_len ≤ row then Except.error "Row index out of range"
  else Except.ok (lut.table.getD row [])

end InterpolableLUT

namespace InterpolateLUT

/-- Loop of the duplicate class's `find_nearest_indexes` (identical source). -/
def scanFrom (list : List ℚ) (search_val : ℚ) : ℕ → ℕ → Option (ℕ × ℕ)
  | _, 0 => none
  | i, n + 1 =>
    if list.getD i 0 ≤ search_val ∧ search_val < list.getD (i + 1) 0 then
      some (i, i + 1)
    else scanFrom list search_val (i + 1) n

/-- Model of `InterpolateLUT::find_nearest_indexes` from the second source
file (textually identical to the `InterpolableLUT` version). -/
def find_nearest_indexes (list : List ℚ) (list_len : ℕ) (search_val : ℚ) :
    Option (ℕ × ℕ) :=
  scanFrom list search_val 0 (list_len - 1)

/-- Model of the `double` overload of `InterpolateLUT::linear_interpolate`;
with `double` arguments C++ overload resolution selects this overload, so the
unused `int` overload is not modelled. -/
def linear_interpolate (x0 y0 x1 y1 x : ℚ) : ℚ :=
  y0 + (y1 - y0) * (x - x0) / (x1 - x0)

/-- The temporary vector built inside `InterpolateLUT::find`. -/
def syntheticRow (lut : InterpolableLUT) (y_lower_idx y_upper_idx : ℕ)
    (y_input : ℚ) : List ℚ :=
  (List.range lut.x_len).map fun i =>
    linear_interpolate (lut.y_ref.getD y_lower_idx 0)
      ((lut.table.getD y_lower_idx []).getD i 0)
      (lut.y_ref.getD y_upper_idx 0)
      ((lut.table.getD y_upper_idx []).getD i 0) y_input

/-- Model of `InterpolateLUT::find` from the second source file (lines 18-44),
translated independently of the `InterpolableLUT` version. -/
def find (lut : InterpolableLUT) (x_input y_input : ℚ) : ℚ :=
  match find_nearest_indexes lut.y_ref lut.y_len y_input with
  | some (y_lower_idx, y_upper_idx) =>
    match find_nearest_indexes (syntheticRow lut y_lower_idx y_upper_idx y_input)
        lut.x_len x_input with
    | some (x_lower_idx, x_upper_idx) =>
      linear_interpolate
        ((syntheticRow lut y_lower_idx y_upper_idx y_input).getD x_lower_idx 0)
        (lut.x_ref.getD x_lower_idx 0)
        ((syntheticRow lut y_lower_idx y_upper_idx y_input).getD x_upper_idx 0)
        (lut.x_ref.getD x_upper_idx 0)
        x_input
    | none => x_input
  | none => x_input

end InterpolateLUT

/-- The first `n` entries of `l` are sorted non-strictly ascending, stated on
the totalised accessor used by the model.  Kept reducible so the bounded
quantifier stays decidable on concrete inputs. -/
@[reducible] def ascendingUpTo (l : List ℚ) (n : ℕ) : Prop :=
  ∀ i, i < n - 1 → l.getD i 0 ≤ l.getD (i + 1) 0

/-- The first `n` entries of `l` are strictly increasing. -/
@[reducible] def strictAscendingUpTo (l : List ℚ) (n : ℕ) : Prop :=
  ∀ i, i < n - 1 → l.getD i 0 < l.getD (i + 1) 0

/-- Sample table used as concrete input for witnesses: grid `[[1,2],[3,4]]`,
`x_ref = [10,20]`, `y_ref = [0,1]`, strictly increasing everywhere. -/
def lutA : InterpolableLUT := ⟨[[1, 2], [3, 4]], [10, 20], [0, 1], 2, 2⟩

/-- Sample table whose grid values sit far above its `x_ref` scale, with all
axes and rows monotonically increasing. -/
def lutB : InterpolableLUT := ⟨[[100, 200], [101, 201]], [0, 1], [0, 1], 2, 2⟩

/-- Degenerate sample table with a single y grid line (`y_len = 1`). -/
def lutC : InterpolableLUT := ⟨[[1, 2]], [10, 20], [0], 2, 1⟩

/-- Degenerate sample table with a single x column (`x_len = 1`). -/
def lutD : InterpolableLUT := ⟨[[1], [2]], [10], [0, 1], 1, 2⟩

namespace InterpolableLUT

theorem scanFrom_eq_none_iff (l : List ℚ) (v : ℚ) :
    ∀ (n s : ℕ), scanFrom l v s n = none ↔
      ∀ i, s ≤ i → i < s + n → ¬(l.getD i 0 ≤ v ∧ v < l.getD (i + 1) 0) := by
  intro n
  induction n with
  | zero =>
    intro s
    simp only [scanFrom, true_iff]
    intro i h1 h2
    omega
  | succ n ih =>
    intro s
    rw [scanFrom]
    split_ifs with hc
    · constructor
      · intro h
        simp at h
      · intro h
        exact absurd hc (h s le_rfl (by omega))
    · rw [ih (s + 1)]
      constructor
      · intro h i his hin
        rcases Nat.eq_or_lt_of_le his with heq | hlt
        · subst heq
          exact hc
        · exact h i hlt (by omega)
      · intro h i his hin
        exact h i (by omega) (by omega)

theorem scanFrom_eq_some_iff (l : List ℚ) (v : ℚ) :
    ∀ (n s lo hi : ℕ), scanFrom l v s n = some (lo, hi) ↔
      (hi = lo + 1 ∧ s ≤ lo ∧ lo < s + n ∧
       (l.getD lo 0 ≤ v ∧ v < l.getD (lo + 1) 0) ∧
       ∀ j, s ≤ j → j < lo → ¬(l.getD j 0 ≤ v ∧ v < l.getD (j + 1) 0)) := by
  intro n
  induction n with
  | zero =>
    intro s lo hi
    rw [scanFrom]
    constructor
    · intro h
      simp at h
    · rintro ⟨_, h1, h2, _⟩
      omega
  | succ n ih =>
    intro s lo hi
    rw [scanFrom]
    split_ifs with hc
    · simp only [Option.some.injEq, Prod.mk.injEq]
      constructor
      · rintro ⟨rfl, rfl⟩
        exact ⟨rfl, le_rfl, by omega, hc, fun j hj1 hj2 => absurd hj1 (by omega)⟩
      · rintro ⟨rfl, hslo, _, hcond, hmin⟩
        rcases Nat.eq_or_lt_of_le hslo with heq | hlt
        · exact ⟨heq, by omega⟩
        · exact absurd hc (hmin s le_rfl hlt)
    · rw [ih (s + 1)]
      constructor
      · rintro ⟨rfl, hslo, hlt, hcond, hmin⟩
        refine ⟨rfl, by omega, by omega, hcond, ?_⟩
        intro j hj1 hj2
        rcases Nat.eq_or_lt_of_le hj1 with heq | hlt2
        · subst heq
          exact hc
        · exact hmin j hlt2 hj2
      · rintro ⟨rfl, hslo, hlt, hcond, hmin⟩
        have hne : lo ≠ s := by
          rintro rfl
          exact hc hcond
        refine ⟨rfl, by omega, by omega, hcond, ?_⟩
        intro j hj1 hj2
        exact hmin j (by omega) hj2

theorem find_nearest_indexes_eq_none_iff (l : List ℚ) (len : ℕ) (v : ℚ) :
    find_nearest_indexes l len v = none ↔
      ∀ i, i < len - 1 → ¬(l.getD i 0 ≤ v ∧ v < l.getD (i + 1) 0) := by
  rw [find_nearest_indexes, scanFrom_eq_none_iff]
  constructor
  · intro h i hi
    exact h i (Nat.zero_le i) (by omega)
  · intro h i _ hi
    exact h i (by omega)

theorem find_nearest_indexes_eq_some_iff (l : List ℚ) (len : ℕ) (v : ℚ)
    (lo hi : ℕ) :
    find_nearest_indexes l len v = some (lo, hi) ↔
      (hi = lo + 1 ∧ lo < len - 1 ∧
       (l.getD lo 0 ≤ v ∧ v < l.getD (lo + 1) 0) ∧
       ∀ j, j < lo → ¬(l.getD j 0 ≤ v ∧ v < l.getD (j + 1) 0)) := by
  rw [find_nearest_indexes, scanFrom_eq_some_iff]
  constructor
  · rintro ⟨rfl, _, hlt, hcond, hmin⟩
    exact ⟨rfl, by omega, hcond, fun j hj => hmin j (Nat.zero_le j) hj⟩
  · rintro ⟨rfl, hlt, hcond, hmin⟩
    exact ⟨rfl, Nat.zero_le lo, by omega, hcond, fun j _ hj => hmin j hj⟩

theorem find_nearest_indexes_isSome_iff (l : List ℚ) (len : ℕ) (v : ℚ) :
    (find_nearest_indexes l len v).isSome ↔
      ∃ lo, lo < len - 1 ∧ l.getD lo 0 ≤ v ∧ v < l.getD (lo + 1) 0 := by
  constructor
  · intro h
    rw [Option.isSome_iff_exists] at h
    obtain ⟨⟨lo, hi⟩, hp⟩ := h
    obtain ⟨_, hlt, hcond, _⟩ := (find_nearest_indexes_eq_some_iff l len v lo hi).mp hp
    exact ⟨lo, hlt, hcond⟩
  · rintro ⟨lo, hlt, hcond⟩
    cases h : find_nearest_indexes l len v with
    | some p => rfl
    | none => exact absurd hcond ((find_nearest_indexes_eq_none_iff l len v).mp h lo hlt)

end InterpolableLUT

theorem interpolateLUT_scanFrom_eq (l : List ℚ) (v : ℚ) :
    ∀ (n i : ℕ), InterpolateLUT.scanFrom l v i n = InterpolableLUT.scanFrom l v i n := by
  intro n
  induction n with
  | zero =>
    intro i
    rfl
  | succ n ih =>
    intro i
    rw [InterpolateLUT.scanFrom, InterpolableLUT.scanFrom]
    split_ifs
    · rfl
    · exact ih (i + 1)

theorem interpolateLUT_fni_eq (l : List ℚ) (len : ℕ) (v : ℚ) :
    InterpolateLUT.find_nearest_indexes l len v =
      InterpolableLUT.find_nearest_indexes l len v := by
  rw [InterpolateLUT.find_nearest_indexes, InterpolableLUT.find_nearest_indexes,
    interpolateLUT_scanFrom_eq]

theorem interpolateLUT_syntheticRow_eq (lut : InterpolableLUT)
    (y_lower_idx y_upper_idx : ℕ) (y_input : ℚ) :
    InterpolateLUT.syntheticRow lut y_lower_idx y_upper_idx y_input =
      InterpolableLUT.syntheticRow lut y_lower_idx y_upper_idx y_input := rfl

namespace InterpolableLUT

theorem linear_interpolate_first (x0 y0 x1 y1 : ℚ) :
    linear_interpolate x0 y0 x1 y1 x0 = y0 := by
  simp [linear_interpolate]

theorem linear_interpolate_second (x0 y0 x1 y1 : ℚ) (h : x0 ≠ x1) :
    linear_interpolate x0 y0 x1 y1 x1 = y1 := by
  have hne : x1 - x0 ≠ 0 := sub_ne_zero.mpr (Ne.symm h)
  field_simp [linear_interpolate]

theorem linear_interpolate_convex (x0 y0 x1 y1 x : ℚ) (h : x0 < x1) :
    linear_interpolate x0 y0 x1 y1 x =
      (1 - (x - x0) / (x1 - x0)) * y0 + ((x - x0) / (x1 - x0)) * y1 := by
  have hne : x1 - x0 ≠ 0 := ne_of_gt (sub_pos.mpr h)
  field_simp [linear_interpolate]
  ring

theorem linear_interpolate_mono (x0 y0 x1 y1 a b : ℚ) (hx : x0 < x1)
    (hy : y0 ≤ y1) (hab : a ≤ b) :
    linear_interpolate x0 y0 x1 y1 a ≤ linear_interpolate x0 y0 x1 y1 b := by
  have hpos : (0 : ℚ) < x1 - x0 := sub_pos.mpr hx
  have key : (y1 - y0) * (a - x0) / (x1 - x0) ≤ (y1 - y0) * (b - x0) / (x1 - x0) := by
    apply (div_le_div_iff_of_pos_right hpos).mpr
    exact mul_le_mul_of_nonneg_left (by linarith) (by linarith)
  simp only [linear_interpolate]
  linarith

theorem linear_interpolate_lower_bound (x0 y0 x1 y1 a : ℚ) (hx : x0 < x1)
    (hy : y0 ≤ y1) (ha : x0 ≤ a) :
    y0 ≤ linear_interpolate x0 y0 x1 y1 a := by
  have h := linear_interpolate_mono x0 y0 x1 y1 x0 a hx hy ha
  rwa [linear_interpolate_first] at h

theorem linear_interpolate_upper_bound (x0 y0 x1 y1 a : ℚ) (hx : x0 < x1)
    (hy : y0 ≤ y1) (ha : a ≤ x1) :
    linear_interpolate x0 y0 x1 y1 a ≤ y1 := by
  have h := linear_interpolate_mono x0 y0 x1 y1 a x1 hx hy ha
  rwa [linear_interpolate_second x0 y0 x1 y1 (ne_of_lt hx)] at h

theorem syntheticRow_getD (lut : InterpolableLUT) (y_lower_idx y_upper_idx : ℕ)
    (y_input : ℚ) (i : ℕ) (h : i < lut.x_len) :
    (syntheticRow lut y_lower_idx y_upper_idx y_input).getD i 0 =
      linear_interpolate (lut.y_ref.getD y_lower_idx 0)
        ((lut.table.getD y_lower_idx []).getD i 0)
        (lut.y_ref.getD y_upper_idx 0)
        ((lut.table.getD y_upper_idx []).getD i 0) y_input := by
  rw [syntheticRow, List.getD_eq_getElem?_getD, List.getElem?_map,
    List.getElem?_range h]
  rfl

theorem syntheticRow_length (lut : InterpolableLUT) (y_lower_idx y_upper_idx : ℕ)
    (y_input : ℚ) :
    (syntheticRow lut y_lower_idx y_upper_idx y_input).length = lut.x_len := by
  simp [syntheticRow]

end InterpolableLUT

theorem ascendingUpTo_mono (l : List ℚ) (n : ℕ) (h : ascendingUpTo l n) :
    ∀ j, j < n → ∀ i, i ≤ j → l.getD i 0 ≤ l.getD j 0 := by
  intro j
  induction j with
  | zero =>
    intro _ i hi
    obtain rfl : i = 0 := Nat.le_zero.mp hi
    exact le_rfl
  | succ k ih =>
    intro hk i hi
    rcases Nat.le_succ_iff.mp hi with hik | rfl
    · calc l.getD i 0 ≤ l.getD k 0 := ih (by omega) i hik
        _ ≤ l.getD (k + 1) 0 := h k (by omega)
    · exact le_rfl

theorem strictAscendingUpTo_mono (l : List ℚ) (n : ℕ)
    (h : strictAscendingUpTo l n) :
    ∀ j, j < n → ∀ i, i < j → l.getD i 0 < l.getD j 0 := by
  intro j
  induction j with
  | zero =>
    intro _ i hi
    omega
  | succ k ih =>
    intro hk i hi
    rcases Nat.lt_succ_iff_lt_or_eq.mp hi with hik | rfl
    · calc l.getD i 0 < l.getD k 0 := ih (by omega) i hik
        _ < l.getD (k + 1) 0 := h k (by omega)
    · exact h i (by omega)

theorem strictAscendingUpTo_ascending (l : List ℚ) (n : ℕ)
    (h : strictAscendingUpTo l n) : ascendingUpTo l n :=
  fun i hi => le_of_lt (h i hi)

namespace InterpolableLUT

theorem find_eq_of_yscan_none (lut : InterpolableLUT) (x y : ℚ)
    (h : find_nearest_indexes lut.y_ref lut.y_len y = none) :
    find lut x y = x := by
  simp [find, h]

theorem find_eq_of_xscan_none (lut : InterpolableLUT) (x y : ℚ)
    (y_lower_idx y_upper_idx : ℕ)
    (hy : find_nearest_indexes lut.y_ref lut.y_len y = some (y_lower_idx, y_upper_idx))
    (hx : find_nearest_indexes (syntheticRow lut y_lower_idx y_upper_idx y)
        lut.x_len x = none) :
    find lut x y = x := by
  simp [find, hy, hx]

theorem find_eq_interp (lut : InterpolableLUT) (x y : ℚ)
    (y_lower_idx y_upper_idx x_lower_idx x_upper_idx : ℕ)
    (hy : find_nearest_indexes lut.y_ref lut.y_len y = some (y_lower_idx, y_upper_idx))
    (hx : find_nearest_indexes (syntheticRow lut y_lower_idx y_upper_idx y)
        lut.x_len x = some (x_lower_idx, x_upper_idx)) :
    find lut x y =
      linear_interpolate
        ((syntheticRow lut y_lower_idx y_upper_idx y).getD x_lower_idx 0)
        (lut.x_ref.getD x_lower_idx 0)
        ((syntheticRow lut y_lower_idx y_upper_idx y).getD x_upper_idx 0)
        (lut.x_ref.getD x_upper_idx 0) x := by
  simp [find, hy, hx]

end InterpolableLUT

theorem strictAscendingUpTo_le (l : List ℚ) (n : ℕ) (h : strictAscendingUpTo l n) :
    ∀ j, j < n → ∀ i, i ≤ j → l.getD i 0 ≤ l.getD j 0 :=
  ascendingUpTo_mono l n (strictAscendingUpTo_ascending l n h)

theorem interpolateLUT_fni_fun_eq :
    InterpolateLUT.find_nearest_indexes = InterpolableLUT.find_nearest_indexes := by
  funext l len v
  exact interpolateLUT_fni_eq l len v

theorem interpolateLUT_li_fun_eq :
    InterpolateLUT.linear_interpolate = InterpolableLUT.linear_interpolate := rfl

namespace InterpolableLUT

theorem syntheticRow_ascendingUpTo (lut : InterpolableLUT) (y_lower_idx : ℕ)
    (y_input : ℚ)
    (h0 : lut.y_ref.getD y_lower_idx 0 ≤ y_input)
    (h1 : y_input < lut.y_ref.getD (y_lower_idx + 1) 0)
    (ha : ascendingUpTo (lut.table.getD y_lower_idx []) lut.x_len)
    (hb : ascendingUpTo (lut.table.getD (y_lower_idx + 1) []) lut.x_len) :
    ascendingUpTo (syntheticRow lut y_lower_idx (y_lower_idx + 1) y_input)
      lut.x_len := by
  intro i hi
  rw [syntheticRow_getD _ _ _ _ _ (by omega), syntheticRow_getD _ _ _ _ _ (by omega)]
  have hyy : lut.y_ref.getD y_lower_idx 0 < lut.y_ref.getD (y_lower_idx + 1) 0 :=
    lt_of_le_of_lt h0 h1
  rw [linear_interpolate_convex _ _ _ _ _ hyy, linear_interpolate_convex _ _ _ _ _ hyy]
  set t := (y_input - lut.y_ref.getD y_lower_idx 0) /
    (lut.y_ref.getD (y_lower_idx + 1) 0 - lut.y_ref.getD y_lower_idx 0) with ht
  have ht0 : 0 ≤ t := div_nonneg (by linarith) (by linarith)
  have ht1 : t ≤ 1 := by
    rw [ht, div_le_one (by linarith)]
    linarith
  have hA := ha i hi
  have hB := hb i hi
  have e1 := mul_le_mul_of_nonneg_left hA (by linarith : (0 : ℚ) ≤ 1 - t)
  have e2 := mul_le_mul_of_nonneg_left hB ht0
  linarith

end InterpolableLUT

/-- C8: the `find` operations of the two near-duplicate classes
`InterpolableLUT` (first source file) and `InterpolateLUT` (second source file)
are extensionally equal: for every table state and every pair of inputs they
return the same result. -/
theorem find_variants_agree (lut : InterpolableLUT) (x_input y_input : ℚ) :
    InterpolableLUT.find lut x_input y_input =
      InterpolateLUT.find lut x_input y_input := by
  unfold InterpolableLUT.find InterpolateLUT.find
  simp only [interpolateLUT_fni_fun_eq, interpolateLUT_syntheticRow_eq,
    interpolateLUT_li_fun_eq]

namespace InterpolableLUT

/-- C1: for every lookup table with ascending `y_ref` (the stated
precondition) and every `x_input`, a `y_input` below `y_ref[0]` or at or above
`y_ref[y_len-1]` makes `find` return `x_input` unchanged. -/
theorem find_out_of_range_identity (lut : InterpolableLUT) (x_input y_input : ℚ)
    (hasc : ascendingUpTo lut.y_ref lut.y_len)
    (hout : y_input < lut.y_ref.getD 0 0 ∨
      lut.y_ref.getD (lut.y_len - 1) 0 ≤ y_input) :
    find lut x_input y_input = x_input := by
  apply find_eq_of_yscan_none
  rw [find_nearest_indexes_eq_none_iff]
  rintro i hi ⟨hle, hlt⟩
  rcases hout with h | h
  · have hmono : lut.y_ref.getD 0 0 ≤ lut.y_ref.getD i 0 :=
      ascendingUpTo_mono lut.y_ref lut.y_len hasc i (by omega) 0 (by omega)
    linarith
  · have hmono : lut.y_ref.getD (i + 1) 0 ≤ lut.y_ref.getD (lut.y_len - 1) 0 :=
      ascendingUpTo_mono lut.y_ref lut.y_len hasc (lut.y_len - 1) (by omega)
        (i + 1) (by omega)
    linarith

/-- Witness for C1: at `lutA`, the query `y_input = 1` equals the last `y_ref`
entry, and `find` returns the raw `x_input = 7`. -/
theorem find_out_of_range_identity_witness : find lutA 7 1 = 7 :=
  find_out_of_range_identity lutA 7 1 (by decide) (Or.inr (by decide))

/-- C3: whenever the y-bracket search succeeds but the x-bracket search over
the synthetic row fails, `find` returns `x_input` unchanged. -/
theorem find_x_out_of_range_identity (lut : InterpolableLUT)
    (x_input y_input : ℚ) (y_lower_idx y_upper_idx : ℕ)
    (hy : find_nearest_indexes lut.y_ref lut.y_len y_input =
      some (y_lower_idx, y_upper_idx))
    (hx : find_nearest_indexes (syntheticRow lut y_lower_idx y_upper_idx y_input)
      lut.x_len x_input = none) :
    find lut x_input y_input = x_input :=
  find_eq_of_xscan_none lut x_input y_input y_lower_idx y_upper_idx hy hx

/-- Witness for C3: at `lutA` with `y_input = 0` the y-bracket is `(0,1)` and
the synthetic row is `[1,2]`; `x_input = 5` lies outside it and is returned
unchanged. -/
theorem find_x_out_of_range_identity_witness : find lutA 5 0 = 5 :=
  find_x_out_of_range_identity lutA 5 0 0 1 (by decide)
    (by norm_num [find_nearest_indexes, scanFrom, syntheticRow,
      linear_interpolate, lutA, List.range_succ])

/-- C4: the bracket search scans linearly from index `0`; it succeeds exactly
when some `lo` with `lo < list_len - 1` satisfies
`list[lo] <= search_val < list[lo+1]` (lower bound inclusive, upper bound
exclusive, so the last element never serves as a lower bound), and on success
it returns the lowest such `lo` paired with `lo + 1`. -/
theorem find_nearest_indexes_spec (list : List ℚ) (list_len : ℕ)
    (search_val : ℚ) :
    ((find_nearest_indexes list list_len search_val).isSome ↔
      ∃ lo, lo < list_len - 1 ∧ list.getD lo 0 ≤ search_val ∧
        search_val < list.getD (lo + 1) 0) ∧
    (∀ lo hi, find_nearest_indexes list list_len search_val = some (lo, hi) ↔
      (hi = lo + 1 ∧ lo < list_len - 1 ∧
       (list.getD lo 0 ≤ search_val ∧ search_val < list.getD (lo + 1) 0) ∧
       ∀ j, j < lo →
         ¬(list.getD j 0 ≤ search_val ∧ search_val < list.getD (j + 1) 0))) :=
  ⟨find_nearest_indexes_isSome_iff list list_len search_val,
   fun lo hi => find_nearest_indexes_eq_some_iff list list_len search_val lo hi⟩

/-- Witness for C4: on the list `[0, 1]` with length `2` and search value `0`,
the bracket search succeeds. -/
theorem find_nearest_indexes_spec_witness :
    (find_nearest_indexes ([0, 1] : List ℚ) 2 0).isSome :=
  (find_nearest_indexes_spec [0, 1] 2 0).1.mpr ⟨0, by decide, by decide, by decide⟩

end InterpolableLUT

namespace InterpolableLUT

/-- C9: every bracket returned by a successful search inside `find` has
strictly distinct endpoint values, at both call sites of
`linear_interpolate`: the y-direction interpolation uses
`y_ref[y_lower_idx] < y_ref[y_upper_idx]`, and the final interpolation uses
`row[x_lower_idx] < row[x_upper_idx]` on the synthetic row, so the divisor
`x1 - x0` is never zero, for every table and every input, with no
monotonicity precondition. -/
theorem interp_endpoints_distinct (lut : InterpolableLUT) (x_input y_input : ℚ) :
    (∀ y_lower_idx y_upper_idx,
      find_nearest_indexes lut.y_ref lut.y_len y_input =
        some (y_lower_idx, y_upper_idx) →
      lut.y_ref.getD y_lower_idx 0 < lut.y_ref.getD y_upper_idx 0) ∧
    (∀ y_lower_idx y_upper_idx x_lower_idx x_upper_idx,
      find_nearest_indexes lut.y_ref lut.y_len y_input =
        some (y_lower_idx, y_upper_idx) →
      find_nearest_indexes (syntheticRow lut y_lower_idx y_upper_idx y_input)
        lut.x_len x_input = some (x_lower_idx, x_upper_idx) →
      (syntheticRow lut y_lower_idx y_upper_idx y_input).getD x_lower_idx 0 <
        (syntheticRow lut y_lower_idx y_upper_idx y_input).getD x_upper_idx 0) := by
  constructor
  · intro lo hi h
    obtain ⟨rfl, _, ⟨h1, h2⟩, _⟩ := (find_nearest_indexes_eq_some_iff _ _ _ _ _).mp h
    exact lt_of_le_of_lt h1 h2
  · intro y_lower_idx y_upper_idx x_lower_idx x_upper_idx hy hx
    obtain ⟨rfl, _, ⟨h1, h2⟩, _⟩ := (find_nearest_indexes_eq_some_iff _ _ _ _ _).mp hx
    exact lt_of_le_of_lt h1 h2

/-- Witness for C9: at `lutA` with `y_input = 0` and `x_input = 1` both
searched brackets have strictly increasing endpoint values. -/
theorem interp_endpoints_distinct_witness :
    lutA.y_ref.getD 0 0 < lutA.y_ref.getD 1 0 ∧
    (syntheticRow lutA 0 1 0).getD 0 0 < (syntheticRow lutA 0 1 0).getD 1 0 :=
  ⟨(interp_endpoints_distinct lutA 1 0).1 0 1 (by decide),
   (interp_endpoints_distinct lutA 1 0).2 0 1 0 1 (by decide)
     (by norm_num [find_nearest_indexes, scanFrom, syntheticRow,
       linear_interpolate, lutA, List.range_succ])⟩

/-- C10: a table with `y_len < 2` makes `find` the identity on `x_input`
because the y-bracket loop bound `y_len - 1` admits no iteration, and a table
with `x_len < 2` whose y-bracket search succeeds likewise returns `x_input`
because the x-bracket loop over the synthetic row admits no iteration. -/
theorem find_degenerate_identity (lut : InterpolableLUT) (x_input y_input : ℚ) :
    (lut.y_len < 2 → find lut x_input y_input = x_input) ∧
    (lut.x_len < 2 →
      (find_nearest_indexes lut.y_ref lut.y_len y_input).isSome →
      find lut x_input y_input = x_input) := by
  constructor
  · intro h
    apply find_eq_of_yscan_none
    rw [find_nearest_indexes]
    have hz : lut.y_len - 1 = 0 := by omega
    rw [hz]
    rfl
  · intro h hsome
    rw [Option.isSome_iff_exists] at hsome
    obtain ⟨⟨y_lower_idx, y_upper_idx⟩, hy⟩ := hsome
    apply find_eq_of_xscan_none lut _ _ y_lower_idx y_upper_idx hy
    rw [find_nearest_indexes]
    have hz : lut.x_len - 1 = 0 := by omega
    rw [hz]
    rfl

/-- Witness for C10: `lutC` has a single y grid line, `lutD` has a single x
column with a successful y-bracket at `y_input = 0`; both return the raw
`x_input = 5`. -/
theorem find_degenerate_identity_witness : find lutC 5 0 = 5 ∧ find lutD 5 0 = 5 :=
  ⟨(find_degenerate_identity lutC 5 0).1 (by decide),
   (find_degenerate_identity lutD 5 0).2 (by decide) (by decide)⟩

/-- C7: row access signals an explicit bounds error (`std::out_of_range`,
modelled as `Except.error`) for every index at or above `y_len`, and for an
index below `y_len` returns exactly the grid row stored at construction. -/
theorem rowAt_spec (lut : InterpolableLUT) (row : ℕ)
    (hshape : lut.table.length = lut.y_len) :
    (lut.y_len ≤ row → rowAt lut row = Except.error "Row index out of range") ∧
    (∀ hrow : row < lut.y_len,
      rowAt lut row = Except.ok (lut.table.get ⟨row, by omega⟩)) := by
  constructor
  · intro h
    rw [rowAt, if_pos h]
  · intro hrow
    rw [rowAt, if_neg (by omega)]
    congr 1
    rw [List.getD_eq_getElem?_getD, List.getElem?_eq_getElem (by omega)]
    rfl

/-- Witness for C7: at `lutA` (whose table has `y_len = 2` rows), index `5`
yields the bounds error and index `0` yields the stored first row. -/
theorem rowAt_spec_witness :
    rowAt lutA 5 = Except.error "Row index out of range" ∧
    rowAt lutA 0 = Except.ok (lutA.table.get ⟨0, by decide⟩) :=
  ⟨(rowAt_spec lutA 5 rfl).1 (by decide), (rowAt_spec lutA 0 rfl).2 (by decide)⟩

/-- C5: for `y_input` strictly between consecutive `y_ref` values at `lo` and
`lo + 1`, every entry of the synthetic row is the pointwise convex combination
`(1 - t) * table[lo][i] + t * table[lo+1][i]` with
`t = (y_input - y_ref[lo]) / (y_ref[lo+1] - y_ref[lo])` lying in `(0, 1)`. -/
theorem synthetic_row_convex (lut : InterpolableLUT) (lo : ℕ) (y_input : ℚ)
    (hasc : ascendingUpTo lut.y_ref lut.y_len)
    (hlo : lo + 1 < lut.y_len)
    (hlow : lut.y_ref.getD lo 0 < y_input)
    (hhigh : y_input < lut.y_ref.getD (lo + 1) 0) :
    0 < (y_input - lut.y_ref.getD lo 0) /
      (lut.y_ref.getD (lo + 1) 0 - lut.y_ref.getD lo 0) ∧
    (y_input - lut.y_ref.getD lo 0) /
      (lut.y_ref.getD (lo + 1) 0 - lut.y_ref.getD lo 0) < 1 ∧
    ∀ i, i < lut.x_len →
      (syntheticRow lut lo (lo + 1) y_input).getD i 0 =
        (1 - (y_input - lut.y_ref.getD lo 0) /
            (lut.y_ref.getD (lo + 1) 0 - lut.y_ref.getD lo 0)) *
            (lut.table.getD lo []).getD i 0 +
          (y_input - lut.y_ref.getD lo 0) /
            (lut.y_ref.getD (lo + 1) 0 - lut.y_ref.getD lo 0) *
            (lut.table.getD (lo + 1) []).getD i 0 := by
  have hyy : lut.y_ref.getD lo 0 < lut.y_ref.getD (lo + 1) 0 := lt_trans hlow hhigh
  refine ⟨div_pos (by linarith) (by linarith), ?_, ?_⟩
  · rw [div_lt_one (by linarith)]
    linarith
  · intro i hi
    rw [syntheticRow_getD lut lo (lo + 1) y_input i hi]
    exact linear_interpolate_convex _ _ _ _ _ hyy

/-- Witness for C5: at `lutA` with `lo = 0` and `y_input = 1/2`, the weight is
`t = 1/2` and the first synthetic-row entry is the convex combination of the
grid entries `1` and `3`. -/
theorem synthetic_row_convex_witness :
    0 < ((1 : ℚ)/2 - lutA.y_ref.getD 0 0) /
      (lutA.y_ref.getD 1 0 - lutA.y_ref.getD 0 0) ∧
    ((1 : ℚ)/2 - lutA.y_ref.getD 0 0) /
      (lutA.y_ref.getD 1 0 - lutA.y_ref.getD 0 0) < 1 ∧
    (syntheticRow lutA 0 1 (1/2)).getD 0 0 =
      (1 - ((1 : ℚ)/2 - lutA.y_ref.getD 0 0) /
          (lutA.y_ref.getD 1 0 - lutA.y_ref.getD 0 0)) *
          (lutA.table.getD 0 []).getD 0 0 +
        ((1 : ℚ)/2 - lutA.y_ref.getD 0 0) /
          (lutA.y_ref.getD 1 0 - lutA.y_ref.getD 0 0) *
          (lutA.table.getD 1 []).getD 0 0 := by
  obtain ⟨h1, h2, h3⟩ := synthetic_row_convex lutA 0 (1/2) (by decide) (by decide)
    (by norm_num [lutA]) (by norm_num [lutA])
  exact ⟨h1, h2, h3 0 (by decide)⟩

end InterpolableLUT

namespace InterpolableLUT

/-- Counterexample to C2 as stated: at `lutA` the row index `k = 0` is not the
last one and all monotonicity preconditions hold, yet querying the grid point
in the last column (`j = 1`, `x_input = table[0][1] = 2`, `y_input =
y_ref[0] = 0`) returns the raw `x_input = 2` instead of `x_ref[1] = 20`. -/
theorem grid_point_round_trip_counterexample :
    strictAscendingUpTo lutA.y_ref lutA.y_len ∧
    (∀ r, r < lutA.y_len → strictAscendingUpTo (lutA.table.getD r []) lutA.x_len) ∧
    0 + 1 < lutA.y_len ∧ 1 < lutA.x_len ∧
    find lutA ((lutA.table.getD 0 []).getD 1 0) (lutA.y_ref.getD 0 0) = 2 ∧
    lutA.x_ref.getD 1 0 = 20 ∧ (2 : ℚ) ≠ 20 := by
  refine ⟨by decide, by decide, by decide, by decide, ?_, by decide, by norm_num⟩
  norm_num [find, find_nearest_indexes, scanFrom, syntheticRow,
    linear_interpolate, lutA, List.range_succ]

/-- C2 (amended): for a table with strictly increasing `y_ref` and strictly
increasing grid rows, querying the exact grid point `(table[k][j], y_ref[k])`
returns `x_ref[j]` when `k` is not the last row index and `j` is not the last
column index; when `k` is the last row index, or `j` is the last column index,
the out-of-range identity fallback applies and `x_input = table[k][j]` is
returned. -/
theorem grid_point_round_trip (lut : InterpolableLUT) (k j : ℕ)
    (hy : strictAscendingUpTo lut.y_ref lut.y_len)
    (hrows : ∀ r, r < lut.y_len →
      strictAscendingUpTo (lut.table.getD r []) lut.x_len)
    (hk : k < lut.y_len) (hj : j < lut.x_len) :
    (k + 1 < lut.y_len ∧ j + 1 < lut.x_len →
      find lut ((lut.table.getD k []).getD j 0) (lut.y_ref.getD k 0) =
        lut.x_ref.getD j 0) ∧
    (k + 1 = lut.y_len →
      find lut ((lut.table.getD k []).getD j 0) (lut.y_ref.getD k 0) =
        (lut.table.getD k []).getD j 0) ∧
    (k + 1 < lut.y_len ∧ j + 1 = lut.x_len →
      find lut ((lut.table.getD k []).getD j 0) (lut.y_ref.getD k 0) =
        (lut.table.getD k []).getD j 0) := by
  have hyscan : k + 1 < lut.y_len →
      find_nearest_indexes lut.y_ref lut.y_len (lut.y_ref.getD k 0) =
        some (k, k + 1) := by
    intro hklt
    rw [find_nearest_indexes_eq_some_iff]
    refine ⟨rfl, by omega, ⟨le_rfl, hy k (by omega)⟩, ?_⟩
    rintro i hi ⟨h1, h2⟩
    have hle : lut.y_ref.getD (i + 1) 0 ≤ lut.y_ref.getD k 0 :=
      strictAscendingUpTo_le lut.y_ref lut.y_len hy k (by omega) (i + 1) (by omega)
    linarith
  have hrow : k + 1 < lut.y_len → ∀ i, i < lut.x_len →
      (syntheticRow lut k (k + 1) (lut.y_ref.getD k 0)).getD i 0 =
        (lut.table.getD k []).getD i 0 := by
    intro _ i hi
    rw [syntheticRow_getD lut k (k + 1) _ i hi]
    exact linear_interpolate_first _ _ _ _
  refine ⟨?_, ?_, ?_⟩
  · rintro ⟨hklt, hjlt⟩
    have hxscan : find_nearest_indexes
        (syntheticRow lut k (k + 1) (lut.y_ref.getD k 0)) lut.x_len
        ((lut.table.getD k []).getD j 0) = some (j, j + 1) := by
      rw [find_nearest_indexes_eq_some_iff]
      refine ⟨rfl, by omega, ⟨?_, ?_⟩, ?_⟩
      · rw [hrow hklt j hj]
      · rw [hrow hklt (j + 1) (by omega)]
        exact hrows k hk j (by omega)
      · rintro i hi ⟨h1, h2⟩
        rw [hrow hklt (i + 1) (by omega)] at h2
        have hle : (lut.table.getD k []).getD (i + 1) 0 ≤
            (lut.table.getD k []).getD j 0 :=
          strictAscendingUpTo_le (lut.table.getD k []) lut.x_len (hrows k hk) j
            hj (i + 1) (by omega)
        linarith
    rw [find_eq_interp lut _ _ k (k + 1) j (j + 1) (hyscan hklt) hxscan,
      hrow hklt j hj]
    exact linear_interpolate_first _ _ _ _
  · intro hklast
    apply find_eq_of_yscan_none
    rw [find_nearest_indexes_eq_none_iff]
    rintro i hi ⟨h1, h2⟩
    have hle : lut.y_ref.getD (i + 1) 0 ≤ lut.y_ref.getD k 0 :=
      strictAscendingUpTo_le lut.y_ref lut.y_len hy k (by omega) (i + 1) (by omega)
    linarith
  · rintro ⟨hklt, hjlast⟩
    apply find_eq_of_xscan_none lut _ _ k (k + 1) (hyscan hklt)
    rw [find_nearest_indexes_eq_none_iff]
    rintro i hi ⟨h1, h2⟩
    rw [hrow hklt (i + 1) (by omega)] at h2
    have hle : (lut.table.getD k []).getD (i + 1) 0 ≤
        (lut.table.getD k []).getD j 0 :=
      strictAscendingUpTo_le (lut.table.getD k []) lut.x_len (hrows k hk) j hj
        (i + 1) (by omega)
    linarith

/-- Witness for the amended C2: at `lutA` the interior grid point `k = 0`,
`j = 0` round-trips to `x_ref[0]`. -/
theorem grid_point_round_trip_witness :
    find lutA ((lutA.table.getD 0 []).getD 0 0) (lutA.y_ref.getD 0 0) =
      lutA.x_ref.getD 0 0 :=
  (grid_point_round_trip lutA 0 0 (by decide) (by decide) (by decide)
    (by decide)).1 ⟨by decide, by decide⟩

end InterpolableLUT

namespace InterpolableLUT

/-- Counterexample to C6 as stated: `lutB` has ascending `y_ref`, ascending
`x_ref` and ascending grid rows, and `y_input = 0` is in range (the y-bracket
search succeeds), yet `find` is not monotone in `x_input`: `50 ≤ 100` but
`find lutB 50 0 = 50 > 0 = find lutB 100 0`, because `x_input = 50` falls
outside the synthetic row `[100, 200]` and takes the identity fallback. -/
theorem find_monotone_counterexample :
    ascendingUpTo lutB.y_ref lutB.y_len ∧
    ascendingUpTo lutB.x_ref lutB.x_len ∧
    (∀ r, r < lutB.y_len → ascendingUpTo (lutB.table.getD r []) lutB.x_len) ∧
    (find_nearest_indexes lutB.y_ref lutB.y_len 0).isSome ∧
    (50 : ℚ) ≤ 100 ∧
    find lutB 50 0 = 50 ∧ find lutB 100 0 = 0 ∧
    ¬(find lutB 50 0 ≤ find lutB 100 0) := by
  have h1 : find lutB 50 0 = 50 := by
    norm_num [find, find_nearest_indexes, scanFrom, syntheticRow,
      linear_interpolate, lutB, List.range_succ]
  have h2 : find lutB 100 0 = 0 := by
    norm_num [find, find_nearest_indexes, scanFrom, syntheticRow,
      linear_interpolate, lutB, List.range_succ]
  refine ⟨by decide, by decide, by decide, by decide, by norm_num, h1, h2, ?_⟩
  rw [h1, h2]
  norm_num

/-- C6 (amended): for monotonically increasing input data (ascending `y_ref`,
ascending `x_ref`, ascending grid rows) and a fixed in-range `y_input`
(successful y-bracket), `find` is monotone non-decreasing in `x_input` over
the inputs for which the x-bracket search on the synthetic row succeeds. -/
theorem find_monotone_in_x (lut : InterpolableLUT) (a b y_input : ℚ)
    (y_lower_idx y_upper_idx : ℕ)
    (hyasc : ascendingUpTo lut.y_ref lut.y_len)
    (hxasc : ascendingUpTo lut.x_ref lut.x_len)
    (hrows : ∀ r, r < lut.y_len → ascendingUpTo (lut.table.getD r []) lut.x_len)
    (hybr : find_nearest_indexes lut.y_ref lut.y_len y_input =
      some (y_lower_idx, y_upper_idx))
    (ha : (find_nearest_indexes (syntheticRow lut y_lower_idx y_upper_idx y_input)
      lut.x_len a).isSome)
    (hb : (find_nearest_indexes (syntheticRow lut y_lower_idx y_upper_idx y_input)
      lut.x_len b).isSome)
    (hab : a ≤ b) :
    find lut a y_input ≤ find lut b y_input := by
  obtain ⟨rfl, hylt, ⟨hyc1, hyc2⟩, _⟩ :=
    (find_nearest_indexes_eq_some_iff _ _ _ _ _).mp hybr
  have hrasc : ascendingUpTo
      (syntheticRow lut y_lower_idx (y_lower_idx + 1) y_input) lut.x_len :=
    syntheticRow_ascendingUpTo lut y_lower_idx y_input hyc1 hyc2
      (hrows y_lower_idx (by omega)) (hrows (y_lower_idx + 1) (by omega))
  obtain ⟨⟨ja, ja'⟩, haeq⟩ := Option.isSome_iff_exists.mp ha
  obtain ⟨⟨jb, jb'⟩, hbeq⟩ := Option.isSome_iff_exists.mp hb
  obtain ⟨rfl, hja, ⟨hac1, hac2⟩, _⟩ :=
    (find_nearest_indexes_eq_some_iff _ _ _ _ _).mp haeq
  obtain ⟨rfl, hjb, ⟨hbc1, hbc2⟩, _⟩ :=
    (find_nearest_indexes_eq_some_iff _ _ _ _ _).mp hbeq
  have hjab : ja ≤ jb := by
    by_contra hcon
    have hle : (syntheticRow lut y_lower_idx (y_lower_idx + 1) y_input).getD
        (jb + 1) 0 ≤
        (syntheticRow lut y_lower_idx (y_lower_idx + 1) y_input).getD ja 0 :=
      ascendingUpTo_mono _ lut.x_len hrasc ja (by omega) (jb + 1) (by omega)
    linarith
  rw [find_eq_interp lut a y_input y_lower_idx (y_lower_idx + 1) ja (ja + 1)
    hybr haeq]
  rw [find_eq_interp lut b y_input y_lower_idx (y_lower_idx + 1) jb (jb + 1)
    hybr hbeq]
  have hra : (syntheticRow lut y_lower_idx (y_lower_idx + 1) y_input).getD ja 0 <
      (syntheticRow lut y_lower_idx (y_lower_idx + 1) y_input).getD (ja + 1) 0 :=
    lt_of_le_of_lt hac1 hac2
  have hrb : (syntheticRow lut y_lower_idx (y_lower_idx + 1) y_input).getD jb 0 <
      (syntheticRow lut y_lower_idx (y_lower_idx + 1) y_input).getD (jb + 1) 0 :=
    lt_of_le_of_lt hbc1 hbc2
  have hxa : lut.x_ref.getD ja 0 ≤ lut.x_ref.getD (ja + 1) 0 := hxasc ja hja
  have hxb : lut.x_ref.getD jb 0 ≤ lut.x_ref.getD (jb + 1) 0 := hxasc jb hjb
  rcases Nat.lt_or_ge ja jb with hlt | hge
  · have s1 : linear_interpolate
        ((syntheticRow lut y_lower_idx (y_lower_idx + 1) y_input).getD ja 0)
        (lut.x_ref.getD ja 0)
        ((syntheticRow lut y_lower_idx (y_lower_idx + 1) y_input).getD (ja + 1) 0)
        (lut.x_ref.getD (ja + 1) 0) a ≤ lut.x_ref.getD (ja + 1) 0 :=
      linear_interpolate_upper_bound _ _ _ _ _ hra hxa (le_of_lt hac2)
    have s2 : lut.x_ref.getD (ja + 1) 0 ≤ lut.x_ref.getD jb 0 :=
      ascendingUpTo_mono lut.x_ref lut.x_len hxasc jb (by omega) (ja + 1)
        (by omega)
    have s3 : lut.x_ref.getD jb 0 ≤ linear_interpolate
        ((syntheticRow lut y_lower_idx (y_lower_idx + 1) y_input).getD jb 0)
        (lut.x_ref.getD jb 0)
        ((syntheticRow lut y_lower_idx (y_lower_idx + 1) y_input).getD (jb + 1) 0)
        (lut.x_ref.getD (jb + 1) 0) b :=
      linear_interpolate_lower_bound _ _ _ _ _ hrb hxb hbc1
    linarith
  · have heq : ja = jb := by omega
    subst heq
    exact linear_interpolate_mono _ _ _ _ _ _ hra hxa hab

/-- Witness for the amended C6: at `lutA` with `y_input = 0` (synthetic row
`[1, 2]`) both `x` queries `1` and `3/2` are bracketed and `find` is ordered:
`find lutA 1 0 ≤ find lutA (3/2) 0`. -/
theorem find_monotone_in_x_witness : find lutA 1 0 ≤ find lutA (3/2) 0 :=
  find_monotone_in_x lutA 1 (3/2) 0 0 1 (by decide) (by decide) (by decide)
    (by decide)
    (by norm_num [find_nearest_indexes, scanFrom, syntheticRow,
      linear_interpolate, lutA, List.range_succ])
    (by norm_num [find_nearest_indexes, scanFrom, syntheticRow,
      linear_interpolate, lutA, List.range_succ])
    (by norm_num)

end InterpolableLUT
